import Mathlib

/-!
Verification of the agent decision loop of `agent_fun.py` (Weekend-Wizard).

Shallow embedding conventions:
* Python/JSON values are modelled by the inductive `Json`.  `json.loads` is an
  external library collaborator and is passed in as an oracle
  `jparse : String → Option Json` (`none` models a raised `JSONDecodeError`).
* JSON numbers keep Python's int/float distinction: `num : Int` for ints,
  `fnum : Rat` for floats (a JSON decimal literal is modelled by its exact
  decimal value; no arithmetic is ever performed on these values, only
  pass-through and rendering, so the binary-float rounding of CPython is
  observationally irrelevant here).
* The Groq HTTP calls are modelled by an `HttpResult` oracle value:
  `raised` is a `requests.exceptions.RequestException` escaping
  `requests.post` (or `response.json()`, whose `JSONDecodeError` subclasses
  `RequestException` in requests >= 2.27), `resp status body` is a delivered
  response together with the outcome of `response.json()`.
* Python exceptions that the code does NOT catch are made explicit as
  `Except PyExn` results; code paths argued to be total are given the plain
  value type.
-/

inductive Json where
  | null : Json
  | bool : Bool → Json
  | num : Int → Json
  | fnum : Rat → Json
  | str : String → Json
  | arr : List Json → Json
  | obj : List (String × Json) → Json

/-- Python `dict` lookup for a JSON object (later duplicate keys override
earlier ones, as in `json.loads`). -/
def objGet (kvs : List (String × Json)) (k : String) : Option Json :=
  kvs.foldl (fun acc p => if p.1 = k then some p.2 else acc) none

/-- Python `k in d` key membership. -/
def hasKey (kvs : List (String × Json)) (k : String) : Bool :=
  (objGet kvs k).isSome

/-- Python truthiness (`if not x:`) of a JSON value. -/
def pyFalsy : Json → Bool
  | .null => true
  | .bool b => !b
  | .num n => n == 0
  | .fnum q => q == 0
  | .str s => s == ""
  | .arr xs => xs.isEmpty
  | .obj kvs => kvs.isEmpty

/-- Truthiness of `d.get(k)` (a missing key gives `None`, which is falsy). -/
def pyFalsyO : Option Json → Bool
  | none => true
  | some j => pyFalsy j

/-- Python `x == "lit"` for a JSON value (only an equal string compares equal;
`==` never raises). -/
def jsonIsStr (j : Json) (lit : String) : Bool :=
  match j with
  | .str s => s == lit
  | _ => false

def jsonIsStrO (o : Option Json) (lit : String) : Bool :=
  match o with
  | some j => jsonIsStr j lit
  | none => false

def isObjJson : Json → Bool
  | .obj _ => true
  | _ => false

/-- Single-quote and double-quote characters (used by Python `repr`). -/
def squote : Char := Char.ofNat 39
def dquote : Char := Char.ofNat 34

def pow10 : Nat → Nat
  | 0 => 1
  | n + 1 => 10 * pow10 n

/-- Zero-pad a digit string on the left to width `k`. -/
def padZeros (k : Nat) (s : String) : String :=
  String.mk (List.replicate (k - s.length) '0') ++ s

/-- Python `repr`/`str` of a float whose exact value is the rational `q`.
CPython prints the shortest decimal that round-trips; for the decimal values
that arise from JSON literals this is the decimal expansion itself. -/
def floatRepr (q : Rat) : String :=
  if q.den == 1 then toString q.num ++ ".0"
  else
    match (List.range 31).find? (fun k => pow10 k % q.den == 0) with
    | some k =>
        let scaled := q.num.natAbs * (pow10 k / q.den)
        let ip := scaled / pow10 k
        let fp := scaled % pow10 k
        (if q.num < 0 then "-" else "") ++ toString ip ++ "." ++ padZeros k (toString fp)
    | none => toString q.num ++ "/" ++ toString q.den

/-- Escape one character of a Python string literal delimited by `q`. -/
def pyEscape (q c : Char) : String :=
  if c = '\\' then "\\\\"
  else if c = q then "\\" ++ String.mk [c]
  else if c = '\n' then "\\n"
  else if c = '\r' then "\\r"
  else if c = '\t' then "\\t"
  else String.mk [c]

/-- Python `repr` of a string: single-quoted unless the string contains a
single quote and no double quote. -/
def pyQuote (s : String) : String :=
  let q := if s.data.contains squote && !(s.data.contains dquote) then dquote else squote
  String.mk [q] ++ String.join (s.data.map (pyEscape q)) ++ String.mk [q]

mutual
/-- Python `repr` of a JSON value (as produced by `json.loads`). -/
def pyReprJ : Json → String
  | .null => "None"
  | .bool b => if b then "True" else "False"
  | .num n => toString n
  | .fnum q => floatRepr q
  | .str s => pyQuote s
  | .arr xs => "[" ++ String.intercalate ", " (pyReprL xs) ++ "]"
  | .obj kvs => "\x7b" ++ String.intercalate ", " (pyReprP kvs) ++ "\x7d"

def pyReprL : List Json → List String
  | [] => []
  | x :: xs => pyReprJ x :: pyReprL xs

def pyReprP : List (String × Json) → List String
  | [] => []
  | (k, v) :: t => (pyQuote k ++ ": " ++ pyReprJ v) :: pyReprP t
end

/-- Python `str` of a JSON value (strings render without quotes, everything
else as `repr`). -/
def pyStr : Json → String
  | .str s => s
  | j => pyReprJ j

/-- Python `len()` of a JSON value; `none` models the `TypeError` raised for
types without a length. -/
def pyLen : Json → Option Nat
  | .str s => some s.length
  | .arr xs => some xs.length
  | .obj kvs => some kvs.length
  | _ => none

/-- Is `needle` a (contiguous) substring of `hay`?  Models Python `in` on
strings. -/
def listHasSub (needle : List Char) : List Char → Bool
  | [] => needle.isEmpty
  | c :: t => needle.isPrefixOf (c :: t) || listHasSub needle t

def strHasSub (hay needle : String) : Bool :=
  listHasSub needle.data hay.data

/-- Python `s.replace(needle, repl)` on character lists: leftmost,
non-overlapping, left to right.  The fuel is the remaining text length plus
one, making the recursion structural. -/
def replaceAux (needle repl : List Char) : Nat → List Char → List Char
  | 0, cs => cs
  | _ + 1, [] => []
  | fuel + 1, c :: t =>
      if needle.isPrefixOf (c :: t) && !needle.isEmpty then
        repl ++ replaceAux needle repl fuel ((c :: t).drop needle.length)
      else c :: replaceAux needle repl fuel t

def pyReplace (s needle repl : String) : String :=
  String.mk (replaceAux needle.data repl.data (s.data.length + 1) s.data)

/-- Python `s.strip()` (whitespace at both ends; ASCII whitespace suffices for
the strings this program handles). -/
def pyStrip (s : String) : String :=
  String.mk (((s.data.dropWhile Char.isWhitespace).reverse.dropWhile
    Char.isWhitespace).reverse)

/-- Python `s.lower()` (the scanned tokens are all ASCII). -/
def strLower (s : String) : String :=
  String.mk (s.data.map Char.toLower)

/-- Models `content.replace('```json', '').replace('```', '').strip()` from
`llm_json` (lines 101-102). -/
def cleanContent (content : String) : String :=
  pyStrip (pyReplace (pyReplace content "```json" "") "```" "")

def lbrace : Char := Char.ofNat 123
def rbrace : Char := Char.ofNat 125

/-- Index of the last occurrence of `c`, if any. -/
def lastIdxOf (c : Char) (cs : List Char) : Option Nat :=
  (cs.reverse.findIdx? (· = c)).map (fun i => cs.length - 1 - i)

/-- One anchored attempt of a greedy `X.*Y` (DOTALL) alternative: succeeds if
the text starts with `opener` and some later character is `closer`; the match
runs to the LAST `closer` (greedy `.*`). -/
def extractBracketed (opener closer : Char) (cs : List Char) : Option (List Char) :=
  match cs with
  | [] => none
  | c :: rest =>
      if c = opener then (lastIdxOf closer rest).map (fun i => c :: rest.take (i + 1))
      else none

/-- Models `re.search(r'(\x7b.*\x7d|\[.*\])', content, re.DOTALL)` (line 158):
leftmost position wins; at a position the brace alternative is tried before
the bracket alternative. -/
def jsonPatSearch : List Char → Option (List Char)
  | [] => none
  | c :: rest =>
      match extractBracketed lbrace rbrace (c :: rest) with
      | some m => some m
      | none =>
          match extractBracketed '[' ']' (c :: rest) with
          | some m => some m
          | none => jsonPatSearch rest

/-- Digit run at the head of the text: the digits and the rest. -/
def takeDigits (cs : List Char) : List Char × List Char :=
  match cs with
  | [] => ([], [])
  | c :: t =>
      if c.isDigit then
        let (ds, r) := takeDigits t
        (c :: ds, r)
      else ([], cs)

def digitsToNat (ds : List Char) : Nat :=
  ds.foldl (fun a c => 10 * a + (c.toNat - 48)) 0

/-- Anchored match of `-?\d+\.\d+`: the (exact decimal) value and the rest of
the text.  Mirrors Python `float()` of the matched group. -/
def matchFloat (cs : List Char) : Option (Rat × List Char) :=
  let (neg, cs1) := match cs with
    | '-' :: t => (true, t)
    | _ => (false, cs)
  match takeDigits cs1 with
  | ([], _) => none
  | (ds, r1) =>
      match r1 with
      | '.' :: r2 =>
          match takeDigits r2 with
          | ([], _) => none
          | (fs, r3) =>
              let v : Rat :=
                (digitsToNat ds : Rat) + (digitsToNat fs : Rat) / (pow10 fs.length : Rat)
              some (if neg then -v else v, r3)
      | _ => none

/-- One or more `[,\s]` separator characters (greedy). -/
def matchSeps (cs : List Char) : Option (List Char) :=
  match cs with
  | c :: t =>
      if c = ',' || c.isWhitespace then
        let rest := t.dropWhile (fun d => d = ',' || d.isWhitespace)
        some rest
      else none
  | [] => none

/-- Anchored attempt of `(-?\d+\.\d+)[,\s]+(-?\d+\.\d+)`. -/
def matchCoordAt (cs : List Char) : Option (Rat × Rat) :=
  (matchFloat cs).bind fun p =>
    (matchSeps p.2).bind fun r2 =>
      (matchFloat r2).map fun q => (p.1, q.1)

/-- Models `re.search(r'(-?\d+\.\d+)[,\s]+(-?\d+\.\d+)', content)` (line 178). -/
def coordSearch : List Char → Option (Rat × Rat)
  | [] => none
  | c :: rest =>
      match matchCoordAt (c :: rest) with
      | some p => some p
      | none => coordSearch rest

def finalObj (s : String) : Json :=
  .obj [("action", .str "final"), ("answer", .str s)]

def finalObjJ (j : Json) : Json :=
  .obj [("action", .str "final"), ("answer", j)]

/-- Is this JSON value a dict containing an `"action"` key? -/
def isActionedDict : Json → Bool
  | .obj kvs => hasKey kvs "action"
  | _ => false

/-- The tool-name tokens hard-coded at line 174 of `llm_json`. -/
def knownTools : List String :=
  ["get_weather", "book_recs", "random_joke", "random_dog", "city_to_coords", "trivia"]

/-- Heuristic tool scan, lines 173-188 of `llm_json`: first listed tool whose
name occurs in the lowered text wins; coordinates feed `get_weather`;
`book_recs` plus the word "mystery" gets canned args; otherwise empty args;
no tool found falls back to a final answer carrying the whole text. -/
def heuristicScan (content : String) : Json :=
  let lc := strLower content
  match knownTools.find? (fun t => strHasSub lc t) with
  | some t =>
      if t == "get_weather" then
        match coordSearch content.data with
        | some p =>
            .obj [("action", .str "get_weather"),
                  ("args", .obj [("latitude", .fnum p.1), ("longitude", .fnum p.2)])]
        | none => .obj [("action", .str t), ("args", .obj [])]
      else if t == "book_recs" && strHasSub lc "mystery" then
        .obj [("action", .str "book_recs"),
              ("args", .obj [("topic", .str "mystery"), ("limit", .num 2)])]
      else .obj [("action", .str t), ("args", .obj [])]
  | none => finalObj content

/-- Lines 155-167 of `llm_json`: locate an embedded JSON object/array and
re-parse it; accept the result only if it is a dict with an `"action"` key, or
a non-empty list whose first element is such a dict (returned UN-normalized in
both cases).  `none` means this recovery attempt failed (exceptions are
swallowed by the bare `except: pass`). -/
def fallbackExtract (jparse : String → Option Json) (content : String) : Option Json :=
  match jsonPatSearch content.data with
  | none => none
  | some m =>
      match jparse (String.mk m) with
      | some (.obj kvs) => if hasKey kvs "action" then some (.obj kvs) else none
      | some (.arr (x :: _)) => if isActionedDict x then some x else none
      | _ => none

/-- The `json.JSONDecodeError` handler of `llm_json`, lines 151-188. -/
def decodeFallback (jparse : String → Option Json) (content : String) : Json :=
  match fallbackExtract jparse content with
  | some j => j
  | none =>
      let lc := strLower content
      if strHasSub lc "weather" || strHasSub lc "temperature" || strHasSub lc "answer" then
        finalObj content
      else heuristicScan content

/-- The decoding step of `llm_json`, lines 104-188, applied to the cleaned
content string.  Total: every Python operation on these paths is non-raising
(`str()`, `.lower()`, `.get`, `in`, `float()` of a regex-shaped group), and
`json.loads` failures are caught. -/
def decodeContent (jparse : String → Option Json) (content : String) : Json :=
  match jparse content with
  | some parsed =>
      match parsed with
      | .arr items =>
          match items.find? isActionedDict with
          | some it => it
          | none =>
              match items with
              | [] => finalObj "I received an empty response."
              | x :: _ => finalObj (pyStr x)
      | .obj kvs =>
          if hasKey kvs "action" then
            let action := (objGet kvs "action").getD (.str "")
            let args := (objGet kvs "args").getD (.obj [])
            if jsonIsStr action "final" then
              let answer := (objGet kvs "answer").getD (.str "")
              let answer :=
                if pyFalsy answer then Json.str "I have gathered the information you requested."
                else answer
              finalObjJ answer
            else
              let args := match args with | .obj _ => args | _ => Json.obj []
              Json.obj [("action", action), ("args", args)]
          else if hasKey kvs "answer" then finalObjJ ((objGet kvs "answer").getD .null)
          else if hasKey kvs "response" then finalObjJ ((objGet kvs "response").getD .null)
          else finalObj (pyStr parsed)
      | other => finalObj (pyStr other)
  | none => decodeFallback jparse content

/-- Cleanup plus decode: lines 101-188 of `llm_json`. -/
def decodeRaw (jparse : String → Option Json) (content : String) : Json :=
  decodeContent jparse (cleanContent content)

/-- Python exceptions that `agent_fun.py` leaves uncaught on some path. -/
inductive PyExn where
  | keyError : PyExn
  | indexError : PyExn
  | typeError : PyExn
  | attributeError : PyExn

/-- Outcome of a Groq HTTP call as seen by the caller: `raised` is a
`requests.exceptions.RequestException` out of `requests.post` (or out of
`response.json()`, whose error subclasses it in requests >= 2.27);
`resp status body` is a delivered response paired with the result of
`response.json()` (`Except.error ()` = body not parseable as JSON). -/
inductive HttpResult where
  | raised : HttpResult
  | resp : Nat → Except Unit Json → HttpResult

/-- Python `x[k]` for a string key: `KeyError` on a dict without the key,
`TypeError` on non-dict values. -/
def pyGetKey (j : Json) (k : String) : Except PyExn Json :=
  match j with
  | .obj kvs =>
      match objGet kvs k with
      | some v => .ok v
      | none => .error .keyError
  | _ => .error .typeError

/-- Python `x[0]`: first element of a list (IndexError when empty), first
character of a string, `KeyError` on a dict (JSON keys are strings, never the
int 0), `TypeError` otherwise. -/
def pyGetIdx0 (j : Json) : Except PyExn Json :=
  match j with
  | .arr (x :: _) => .ok x
  | .arr [] => .error .indexError
  | .str s =>
      match s.data with
      | [] => .error .indexError
      | c :: _ => .ok (.str (String.mk [c]))
  | .obj _ => .error .keyError
  | _ => .error .typeError

/-- Models `result["choices"][0]["message"]["content"]` (line 99 / line 229). -/
def pyExtractContent (result : Json) : Except PyExn Json := do
  let choices ← pyGetKey result "choices"
  let c0 ← pyGetIdx0 choices
  let message ← pyGetKey c0 "message"
  pyGetKey message "content"

/-- Models `llm_json`, lines 85-193 (the request payload assembly, lines 60-83, only
feeds the external call and is folded into the `HttpResult` oracle).
An `Except.error` is a Python exception escaping `llm_json`: only
`requests.exceptions.RequestException` is caught, so a `KeyError` /
`IndexError` / `TypeError` / `AttributeError` from the shape of a 200
response's body propagates to the caller. -/
def llm_json (jparse : String → Option Json) (outcome : HttpResult) : Except PyExn Json :=
  match outcome with
  | .raised =>
      .ok (finalObj "Sorry, I'm having trouble connecting to services. Please try again.")
  | .resp status body =>
      if status ≠ 200 then
        .ok (finalObj "Error contacting weather service. Please try again.")
      else
        match body with
        | .error _ =>
            .ok (finalObj "Sorry, I'm having trouble connecting to services. Please try again.")
        | .ok result =>
            match pyExtractContent result with
            | .error e => .error e
            | .ok (.str content) => .ok (decodeRaw jparse content)
            | .ok _ => .error .attributeError

/-- Models `reflect_with_groq`, lines 195-232.  Everything after the length gate sits
in a `try`/`except Exception`, so every failure — transport error,
`raise_for_status` on a 4xx/5xx (requests raises `HTTPError` exactly for
`400 <= status < 600`; an out-of-range status such as 999 is treated as a
success and its body is used), unparseable body, wrong body shape,
`.strip()` on a non-string — degrades to the sentinel "looks good". -/
def reflect_with_groq (outcome : HttpResult) (answer : String) : String :=
  if answer.length < 200 then "looks good"
  else
    match outcome with
    | .raised => "looks good"
    | .resp status body =>
        if 400 ≤ status ∧ status < 600 then "looks good"
        else
          match body with
          | .error _ => "looks good"
          | .ok j =>
              match pyExtractContent j with
              | .ok (.str s) => pyStrip s
              | _ => "looks good"

inductive Role where
  | system : Role
  | user : Role
  | assistant : Role
deriving DecidableEq

/-- One entry of the `history` list: `{"role": ..., "content": ...}`.  The
content is a `Json` value because the code can append a non-string decoded
answer (see `finalBranch`). -/
structure Turn where
  role : Role
  content : Json

/-- The `gathered_info` accumulator (line 273), keyed `weather`, `books`,
`joke`, `dog`, `trivia` in insertion order.  Fields hold arbitrary values
because `random_joke` / `random_dog` / `trivia` store raw `.get` results;
`Json.null` is the initial Python `None`. -/
structure Gathered where
  weather : Json
  books : Json
  joke : Json
  dog : Json
  trivia : Json

def initGathered : Gathered := ⟨.null, .null, .null, .null, .null⟩

/-- The `weather_code` classification, line 355.  `none` models the `TypeError`
of `code > 50` on a non-numeric value (caught by the enclosing `except`). -/
def pyEqInt (j : Json) (n : Int) : Bool :=
  match j with
  | .num m => m == n
  | .fnum q => q == (n : Rat)
  | .bool b => (if b then (1 : Int) else 0) == n
  | _ => false

def pyGtInt (j : Json) (n : Int) : Option Bool :=
  match j with
  | .num m => some (n < m)
  | .fnum q => some ((n : Rat) < q)
  | .bool b => some (n < (if b then (1 : Int) else 0))
  | _ => none

def weatherDesc (code : Json) : Option String :=
  if pyEqInt code 0 || pyEqInt code 1 then some "sunny"
  else if pyEqInt code 2 || pyEqInt code 3 then some "cloudy"
  else
    match pyGtInt code 50 with
    | some true => some "rainy"
    | some false => some "clear"
    | none => none

/-- The `[b.get('title', 'Unknown') for b in books]` comprehension followed by
`", ".join(...)`: `none` models an exception (a non-dict element, or a
non-string title reaching `join`). -/
def bookTitles : List Json → Option (List String)
  | [] => some []
  | b :: t =>
      match b with
      | .obj kvs =>
          match (objGet kvs "title").getD (.str "Unknown") with
          | .str s => (bookTitles t).map (fun r => s :: r)
          | _ => none
      | _ => none

/-- Python `s[:n]` on a string (slicing by code points, as Python does). -/
def strTake (s : String) (n : Nat) : String :=
  String.mk (s.data.take n)

/-- Lines 348-389: per-tool extraction into `gathered_info`.  Each branch has
its own bare `except` whose handler stores a fixed placeholder. -/
def updateGathered (jparse : String → Option Json) (tname : String) (payload : String)
    (g : Gathered) : Gathered :=
  if tname == "get_weather" then
    match jparse payload with
    | some (.obj kvs) =>
        let temp := (objGet kvs "temperature_2m").getD (.str "N/A")
        let code := (objGet kvs "weather_code").getD (.num 0)
        match weatherDesc code with
        | some desc =>
            { g with weather := .str (pyStr temp ++ "Â°C, " ++ desc) }
        | none => { g with weather := .str "Weather data received" }
    | _ => { g with weather := .str "Weather data received" }
  else if tname == "book_recs" then
    match jparse payload with
    | some (.obj kvs) =>
        match (objGet kvs "results").getD (.arr []) with
        | .arr xs =>
            match bookTitles (xs.take 2) with
            | some titles =>
                { g with books := .str (if titles.isEmpty then "Mystery books"
                                        else String.intercalate ", " titles) }
            | none => { g with books := .str "Mystery book recommendations" }
        | .str s =>
            if s == "" then { g with books := .str "Mystery books" }
            else { g with books := .str "Mystery book recommendations" }
        | _ => { g with books := .str "Mystery book recommendations" }
    | _ => { g with books := .str "Mystery book recommendations" }
  else if tname == "random_joke" then
    match jparse payload with
    | some (.obj kvs) => { g with joke := (objGet kvs "joke").getD (.str "A funny joke!") }
    | _ => { g with joke := .str "A lighthearted joke" }
  else if tname == "random_dog" then
    match jparse payload with
    | some (.obj kvs) => { g with dog := (objGet kvs "message").getD (.str "cute dog picture") }
    | _ => { g with dog := .str "A cute dog picture URL" }
  else if tname == "trivia" then
    match jparse payload with
    | some (.obj kvs) =>
        let question := (objGet kvs "question").getD (.str "")
        match pyLen question with
        | none => { g with trivia := .str "Trivia question" }
        | some n =>
            if n > 100 then
              match question with
              | .str s => { g with trivia := .str (strTake s 100 ++ "...") }
              | _ => { g with trivia := .str "Trivia question" }
            else { g with trivia := question }
    | _ => { g with trivia := .str "Trivia question" }
  else g

/-- Models `any(gathered_info.values())` (line 291). -/
def anyGathered (g : Gathered) : Bool :=
  !pyFalsy g.weather || !pyFalsy g.books || !pyFalsy g.joke || !pyFalsy g.dog ||
    !pyFalsy g.trivia

/-- The keyword gate of line 293: the user message must contain "weather",
"book" and "joke" at once (case-insensitively). -/
def kwTriple (u : String) : Bool :=
  strHasSub (strLower u) "weather" && strHasSub (strLower u) "book" && strHasSub (strLower u) "joke"

/-- The `final_answer_parts` list (lines 294-302); note `trivia` is never included. -/
def comboParts (g : Gathered) : List String :=
  (if !pyFalsy g.weather then ["ðŸŒ¤ï¸ Weather: " ++ pyStr g.weather] else []) ++
  (if !pyFalsy g.books then ["ðŸ“š Book suggestions: " ++ pyStr g.books] else []) ++
  (if !pyFalsy g.joke then ["ðŸ˜„ Joke: " ++ pyStr g.joke] else []) ++
  (if !pyFalsy g.dog then ["ðŸ¶ Dog picture: " ++ pyStr g.dog] else [])

/-- Lines 290-305: combined-answer synthesis applied to a decoded `Final`
answer. -/
def synthCombined (u : String) (g : Gathered) (answer : Json) : Json :=
  if anyGathered g then
    if kwTriple u then
      let parts := comboParts g
      if !parts.isEmpty then
        .str ("Here's your cozy Saturday plan for New York!\n\n" ++
              String.intercalate "\n\n" parts)
      else answer
    else answer
  else answer

/-- Lines 307-311: run the reflection pass when the answer's `len` exceeds
150; a non-sentinel result (compared case-insensitively) replaces the answer.
The boolean records whether the reflection collaborator was invoked. -/
def reflectStep (reflect : Json → String) (answer : Json) (n : Nat) : Json × Bool :=
  if n > 150 then
    let r := reflect answer
    (if strLower r ≠ "looks good" then Json.str r else answer, true)
  else (answer, false)

/-- Oracles and static data for one run of `main`'s conversation loop:
the tool registry key list, the full `llm_json` call (history to decoded
decision dict), the tool dispatch `session.call_tool` plus payload extraction
(lines 337-343), the reflection call, and `json.loads` for payloads. -/
structure LoopCtx where
  toolNames : List String
  llm : List Turn → List (String × Json)
  callTool : List Turn → String → Json → Except String String
  reflect : Json → String
  jparse : String → Option Json

/-- Result of the 12-step per-message loop: final history, final accumulator,
number of decode/dispatch cycles executed, tool invocations performed
(name and args, in order), and whether an uncaught exception escaped
(`len()` on an unsized decoded answer, line 308). -/
structure LoopOut where
  hist : List Turn
  g : Gathered
  cycles : Nat
  calls : List (String × Json)
  crashed : Bool

/-- Python `repr` of the registry key list, as interpolated into the two
error messages (lines 323, 330). -/
def pyStrList (names : List String) : String :=
  "[" ++ String.intercalate ", " (names.map pyQuote) ++ "]"

def noActionMsg (names : List String) : String :=
  "Need to specify an action. Available: " ++ pyStrList names

def unknownMsg (tname : Json) (names : List String) : String :=
  "Tool '" ++ pyStr tname ++ "' not found. Available: " ++ pyStrList names

/-- Is this value hashable in Python?  The membership test
`tname not in tool_index` (line 328) hashes `tname` first: a list or dict
raises `TypeError: unhashable type` there, which nothing in `main` catches. -/
def pyHashable : Json → Bool
  | .arr _ => false
  | .obj _ => false
  | _ => true

/-- Models `tname not in tool_index` (line 328) for HASHABLE names, negated:
a non-string hashable value (number, bool, null) is never a key; a string
must be a registry key. -/
def regName (j : Json) (names : List String) : Option String :=
  match j with
  | .str s => if names.contains s then some s else none
  | _ => none

/-- The `Final` branch of the loop (lines 287-317): take the decoded answer,
apply combined-answer synthesis, reflection for long answers, and append one
assistant turn.  `none` models the uncaught `TypeError` of `len(answer)` on
an unsized value. -/
def finalBranch (reflect : Json → String) (u : String) (hist : List Turn) (g : Gathered)
    (d : List (String × Json)) : Option (List Turn) :=
  let answer := (objGet d "answer").getD (.str "")
  let answer := synthCombined u g answer
  match pyLen answer with
  | none => none
  | some n => some (hist ++ [⟨.assistant, (reflectStep reflect answer n).1⟩])

/-- The forced terminal answer at the step ceiling (lines 400-409). -/
def budgetAnswer (g : Gathered) : String :=
  let parts :=
    (if !pyFalsy g.weather then ["weather: " ++ pyStr g.weather] else []) ++
    (if !pyFalsy g.books then ["books: " ++ pyStr g.books] else []) ++
    (if !pyFalsy g.joke then ["joke: " ++ pyStr g.joke] else []) ++
    (if !pyFalsy g.dog then ["dog: " ++ pyStr g.dog] else []) ++
    (if !pyFalsy g.trivia then ["trivia: " ++ pyStr g.trivia] else [])
  if parts.isEmpty then
    "I tried to gather information but encountered some issues. Let me summarize what I have."
  else "Based on what I found:\n" ++ String.intercalate "\n" parts

def toolTurnContent (tname payload : String) : String :=
  "[tool:" ++ tname ++ "] " ++ payload

/-- The `for step in range(12)` loop (lines 281-415), written with the remaining
iteration count as fuel (entered with `fuel = 12`, `step = 0`, so
`fuel + step = 12` throughout).  Mirrors the control flow exactly:
* a decoded `"final"` action breaks after the final branch;
* a falsy, or a hashable unregistered, action name appends one corrective
  assistant turn and `continue`s — skipping the `step >= 11` budget check;
* a truthy UNHASHABLE action name (non-empty list/dict) raises an uncaught
  `TypeError` at line 328's membership test, crashing the session;
* a dispatched tool (success or exception caught by lines 393-396) appends
  one turn and then runs the budget check, which appends the synthesized
  terminal turn and breaks on the last iteration. -/
def runLoop (ctx : LoopCtx) (u : String) :
    Nat → Nat → List Turn → Gathered → Nat → List (String × Json) → LoopOut
  | 0, _, hist, g, cyc, calls => ⟨hist, g, cyc, calls, false⟩
  | fuel + 1, step, hist, g, cyc, calls =>
      let d := ctx.llm hist
      if jsonIsStrO (objGet d "action") "final" then
        match finalBranch ctx.reflect u hist g d with
        | some hist2 => ⟨hist2, g, cyc + 1, calls, false⟩
        | none => ⟨hist, g, cyc + 1, calls, true⟩
      else
        let tnameO := objGet d "action"
        let args := (objGet d "args").getD (.obj [])
        if pyFalsyO tnameO then
          runLoop ctx u fuel (step + 1)
            (hist ++ [⟨.assistant, .str (noActionMsg ctx.toolNames)⟩]) g (cyc + 1) calls
        else
          let tname := tnameO.getD .null
          if pyHashable tname then
            match regName tname ctx.toolNames with
            | none =>
                runLoop ctx u fuel (step + 1)
                  (hist ++ [⟨.assistant, .str (unknownMsg tname ctx.toolNames)⟩]) g (cyc + 1) calls
            | some s =>
                match ctx.callTool hist s args with
                | .ok payload =>
                    let g2 := updateGathered ctx.jparse s payload g
                    let hist2 := hist ++ [⟨.assistant, .str (toolTurnContent s payload)⟩]
                    let calls2 := calls ++ [(s, args)]
                    if step ≥ 11 then
                      ⟨hist2 ++ [⟨.assistant, .str (budgetAnswer g2)⟩], g2, cyc + 1, calls2, false⟩
                    else runLoop ctx u fuel (step + 1) hist2 g2 (cyc + 1) calls2
                | .error dmsg =>
                    let hist2 := hist ++ [⟨.assistant, .str ("Error with " ++ s ++ ": " ++ dmsg)⟩]
                    let calls2 := calls ++ [(s, args)]
                    if step ≥ 11 then
                      ⟨hist2 ++ [⟨.assistant, .str (budgetAnswer g)⟩], g, cyc + 1, calls2, false⟩
                    else runLoop ctx u fuel (step + 1) hist2 g (cyc + 1) calls2
          else ⟨hist, g, cyc + 1, calls, true⟩

/-- One user message (lines 270-415): append the user turn, reset the
accumulator, run the bounded loop. -/
def processMessage (ctx : LoopCtx) (hist : List Turn) (u : String) : LoopOut :=
  runLoop ctx u 12 0 (hist ++ [⟨.user, .str u⟩]) initGathered 0 []

/-- The interactive session (lines 259-316): one initial system turn, then
per-line processing; a blank or exit word stops; an uncaught exception from a
message ends the session with the history as it stood. -/
def session (ctx : LoopCtx) : List String → List Turn → List Turn
  | [], hist => hist
  | raw :: rest, hist =>
      let u := pyStrip raw
      if u == "" || ["exit", "quit", "q"].contains (strLower u) then hist
      else
        let out := processMessage ctx hist u
        if out.crashed then out.hist else session ctx rest out.hist

def initHistory (sysPrompt : String) : List Turn := [⟨.system, .str sysPrompt⟩]

def runSession (ctx : LoopCtx) (sysPrompt : String) (inputs : List String) : List Turn :=
  session ctx inputs (initHistory sysPrompt)

/-- The activation condition the code ACTUALLY implements for combined-answer
synthesis, stated independently: at least one of the four merged categories
(weather, books, joke, dog — never trivia) is truthy. -/
def fourPopulated (g : Gathered) : Bool :=
  !pyFalsy g.weather || !pyFalsy g.books || !pyFalsy g.joke || !pyFalsy g.dog

/-- The merged combined answer (header of line 305 plus the populated
per-category parts). -/
def mergeAnswer (g : Gathered) : String :=
  "Here's your cozy Saturday plan for New York!\n\n" ++
    String.intercalate "\n\n" (comboParts g)

/-- A `json.loads` oracle for raw inputs that are not valid JSON (every decode
on such inputs raises, i.e. yields `none`). -/
def jparseNone : String → Option Json := fun _ => none

/-- A JSON list whose single element is a dict with an `"action"` key and a
non-mapping `"args"` — the raw text and its `json.loads` value. -/
def cexC1 : String := "[\x7b\"action\": \"get_weather\", \"args\": 7\x7d]"

def jparseC1 : String → Option Json := fun s =>
  if s = cexC1 then
    some (.arr [.obj [("action", .str "get_weather"), ("args", .num 7)]])
  else none

/-- A JSON list whose single element is a `final` dict without an `"answer"`
key. -/
def cexC3 : String := "[\x7b\"action\": \"final\"\x7d]"

def jparseC3 : String → Option Json := fun s =>
  if s = cexC3 then some (.arr [.obj [("action", .str "final")]]) else none

/-- Scenario 3 of the spec: raw list input with a qualifying first element. -/
def scn3 : String :=
  "[\x7b\"action\":\"get_weather\",\"args\":\x7b\"latitude\":1.0,\"longitude\":2.0\x7d\x7d, \x7b\"foo\":\"bar\"\x7d]"

def scn3items : List Json :=
  [.obj [("action", .str "get_weather"),
         ("args", .obj [("latitude", .fnum 1), ("longitude", .fnum 2)])],
   .obj [("foo", .str "bar")]]

def jparseScn3 : String → Option Json := fun s =>
  if s = scn3 then some (.arr scn3items) else none

/-- Non-JSON text containing the `get_weather` token (and hence the substring
"weather"). -/
def cexC4 : String := "please call get_weather now"

/-- Non-JSON text containing the `random_joke` token and none of "weather",
"temperature", "answer". -/
def hitC4 : String := "tell random_joke now"

/-- Accumulator with only the trivia category populated. -/
def gTrivia : Gathered := ⟨.null, .null, .null, .null, .str "Which planet?"⟩

/-- An oracle context whose model always proposes the unregistered tool
`bogus` against a registry of get_weather and random_joke. -/
def ctx0 : LoopCtx :=
  ⟨["get_weather", "random_joke"], fun _ => [("action", Json.str "bogus")],
   fun _ _ _ => .ok "", fun _ => "", fun _ => none⟩

/-- The corrective message `ctx0` elicits every cycle. -/
def cexMsg : String := "Tool 'bogus' not found. Available: ['get_weather', 'random_joke']"

/-- An oracle context that always proposes a registered tool whose invocation
raises (`str(e)` = "boom"). -/
def ctxE : LoopCtx :=
  ⟨["get_weather"], fun _ => [("action", Json.str "get_weather"), ("args", Json.obj [])],
   fun _ _ _ => .error "boom", fun _ => "", fun _ => none⟩

/-- An oracle context whose model proposes the truthy but unhashable action
name `["x"]` (a decision `llm_json` produces from raw content
`{"action": ["x"]}` via the keep-as-is dict path of line 139). -/
def ctxCrash : LoopCtx :=
  ⟨["get_weather", "random_joke"], fun _ => [("action", Json.arr [Json.str "x"])],
   fun _ _ _ => .ok "", fun _ => "", fun _ => none⟩

/-- An oracle context that always proposes a registered tool whose invocation
succeeds with an unparseable payload. -/
def ctxOk : LoopCtx :=
  ⟨["random_joke"], fun _ => [("action", Json.str "random_joke"), ("args", Json.obj [])],
   fun _ _ _ => .ok "oops", fun _ => "", fun _ => none⟩

/-- The list branch of the decoder (lines 108-119), factored out: first
element that is a dict containing `"action"` (returned as-is), else a `Final`
of the stringified first element, else the fixed empty-list fallback. -/
def listDecodeSpec (items : List Json) : Json :=
  match items.find? isActionedDict with
  | some it => it
  | none =>
      match items with
      | [] => finalObj "I received an empty response."
      | x :: _ => finalObj (pyStr x)

theorem heuristicScan_actioned (c : String) : isActionedDict (heuristicScan c) = true := by
  unfold heuristicScan
  dsimp only []
  split
  · split
    · split <;> rfl
    · split <;> rfl
  · rfl

theorem fallbackExtract_actioned (jparse : String → Option Json) (c : String) (j : Json)
    (h : fallbackExtract jparse c = some j) : isActionedDict j = true := by
  unfold fallbackExtract at h
  split at h
  · exact absurd h (by simp)
  · split at h
    · split at h
      · cases h; assumption
      · exact absurd h (by simp)
    · split at h
      · cases h; assumption
      · exact absurd h (by simp)
    · exact absurd h (by simp)

theorem decodeFallback_actioned (jparse : String → Option Json) (c : String) :
    isActionedDict (decodeFallback jparse c) = true := by
  unfold decodeFallback
  cases hfe : fallbackExtract jparse c with
  | some j => exact fallbackExtract_actioned jparse c j hfe
  | none =>
      simp only []
      split
      · rfl
      · exact heuristicScan_actioned c

/-- C1 (amended): for EVERY `json.loads` behavior and every raw content
string, the decoding step of `llm_json` returns a dict containing an
`"action"` key, and (by the totality of this function) never raises.  The
original claim's stronger well-formedness — a `Final` always carrying a
string answer, a `ToolCall` whose `args` is always a mapping — fails on the
un-normalized list path, see `decode_list_args_not_mapping`. -/
theorem decode_total_action_key (jparse : String → Option Json) (content : String) :
    isActionedDict (decodeRaw jparse content) = true := by
  unfold decodeRaw decodeContent
  cases hp : jparse (cleanContent content) with
  | none => exact decodeFallback_actioned jparse (cleanContent content)
  | some parsed =>
      cases parsed with
      | arr items =>
          simp only []
          cases hf : items.find? isActionedDict with
          | some it => simpa using List.find?_some hf
          | none => cases items <;> rfl
      | obj kvs =>
          simp only []
          split
          · split
            · rfl
            · rfl
          · split
            · rfl
            · split <;> rfl
      | null => rfl
      | bool b => rfl
      | num n => rfl
      | fnum q => rfl
      | str s => rfl

/-- C1 (counterexample to the claim as stated): on the raw list input
`[{"action": "get_weather", "args": 7}]` the decoder returns the element
unchanged, whose `args` is the integer 7 — not a mapping from strings to
values. -/
theorem decode_list_args_not_mapping :
    decodeRaw jparseC1 cexC1 =
      Json.obj [("action", Json.str "get_weather"), ("args", Json.num 7)] ∧
    isObjJson (Json.num 7) = false :=
  ⟨rfl, rfl⟩

/-- C3 (amended): when the (cleaned) raw input parses as a JSON list, decode
returns the first element that is a dict containing an `"action"` key AS-IS
(without re-applying the top-level normalization); if none qualifies, a
`Final` whose answer is the Python-stringified first element; for the empty
list, the fixed fallback `Final`. -/
theorem decode_list_branch (jparse : String → Option Json) (content : String)
    (items : List Json) (hp : jparse (cleanContent content) = some (.arr items)) :
    decodeRaw jparse content = listDecodeSpec items := by
  unfold decodeRaw decodeContent
  rw [hp]
  rfl

/-- C3 (witness, Scenario 3 of the spec): the list input whose first element
is a qualifying `get_weather` call decodes to that tool call. -/
theorem decode_list_branch_witness :
    decodeRaw jparseScn3 scn3 =
      Json.obj [("action", Json.str "get_weather"),
                ("args", Json.obj [("latitude", Json.fnum 1), ("longitude", Json.fnum 2)])] := by
  rw [decode_list_branch jparseScn3 scn3 scn3items rfl]
  rfl

/-- C3 (counterexample to the claim as stated): the qualifying element
`{"action": "final"}` is returned with NO `"answer"` key at all — the
empty-answer fallback normalization the claim requires is not applied on the
list path. -/
theorem decode_list_no_normalization :
    decodeRaw jparseC3 cexC3 = Json.obj [("action", Json.str "final")] ∧
    objGet [("action", Json.str "final")] "answer" = none :=
  ⟨rfl, rfl⟩

/-- C4 (amended): the heuristic tool-name scan runs only when the raw text
contains none of the substrings "weather", "temperature", "answer"
(case-insensitively) — otherwise the direct-answer shortcut of line 170
returns the whole text as a `Final` first (see
`fallback_weather_token_final`; in particular the `get_weather` branch of the
scan is unreachable, since "get_weather" contains "weather").  Under that
gate, a known tool token yields a `ToolCall` with that tool's name and
best-effort mapping args, and no token yields a `Final` carrying the whole
text. -/
theorem fallback_heuristic_scan (jparse : String → Option Json) (content : String)
    (hp : jparse (cleanContent content) = none)
    (hex : fallbackExtract jparse (cleanContent content) = none)
    (hw : strHasSub (strLower (cleanContent content)) "weather" = false)
    (ht : strHasSub (strLower (cleanContent content)) "temperature" = false)
    (ha : strHasSub (strLower (cleanContent content)) "answer" = false) :
    match knownTools.find? (fun t => strHasSub (strLower (cleanContent content)) t) with
    | some t => ∃ a, decodeRaw jparse content = Json.obj [("action", Json.str t), ("args", a)]
                  ∧ isObjJson a = true
    | none => decodeRaw jparse content = finalObj (cleanContent content) := by
  have hd : decodeRaw jparse content = heuristicScan (cleanContent content) := by
    unfold decodeRaw decodeContent
    rw [hp]
    unfold decodeFallback
    rw [hex]
    simp [hw, ht, ha]
  rw [hd]
  unfold heuristicScan
  dsimp only []
  cases hf : List.find? (fun t => strHasSub (strLower (cleanContent content)) t) knownTools with
  | none => rfl
  | some t =>
      dsimp only []
      by_cases hgw : (t == "get_weather") = true
      · rw [if_pos hgw]
        have hte : t = "get_weather" := by simpa using hgw
        subst hte
        cases coordSearch (cleanContent content).data with
        | some p => exact ⟨_, rfl, rfl⟩
        | none => exact ⟨_, rfl, rfl⟩
      · rw [if_neg hgw]
        by_cases hbr : (t == "book_recs" && strHasSub (strLower (cleanContent content)) "mystery") = true
        · rw [if_pos hbr]
          have hte : t = "book_recs" := by
            have := (Bool.and_eq_true _ _).mp hbr
            simpa using this.1
          subst hte
          exact ⟨_, rfl, rfl⟩
        · rw [if_neg hbr]
          exact ⟨_, rfl, rfl⟩

/-- C4 (witness): non-JSON text containing the `random_joke` token and none
of the gating substrings decodes to a `random_joke` tool call. -/
theorem fallback_heuristic_scan_witness :
    match knownTools.find? (fun t => strHasSub (strLower (cleanContent hitC4)) t) with
    | some t => ∃ a, decodeRaw jparseNone hitC4 = Json.obj [("action", Json.str t), ("args", a)]
                  ∧ isObjJson a = true
    | none => decodeRaw jparseNone hitC4 = finalObj (cleanContent hitC4) :=
  fallback_heuristic_scan jparseNone hitC4 rfl rfl rfl rfl rfl

/-- C4 (counterexample to the claim as stated): non-JSON text containing the
known tool token `get_weather` decodes to a `Final` carrying the raw text —
not to a `ToolCall` — because the "weather" substring triggers the
direct-answer shortcut first. -/
theorem fallback_weather_token_final :
    strHasSub (strLower cexC4) "get_weather" = true ∧
    decodeRaw jparseNone cexC4 = finalObj cexC4 :=
  ⟨rfl, rfl⟩

/-- C5 (amended): a raised request exception, a non-200 status, and an
unparseable 200 body all degrade to a fixed apology `Final` — but NOT every
malformed-shape success, see `llm_json_shape_keyerror`. -/
theorem llm_json_failure_apology (jparse : String → Option Json) (status : Nat)
    (body : Except Unit Json) (hs : status ≠ 200) :
    llm_json jparse .raised =
      .ok (finalObj "Sorry, I'm having trouble connecting to services. Please try again.") ∧
    llm_json jparse (.resp status body) =
      .ok (finalObj "Error contacting weather service. Please try again.") ∧
    llm_json jparse (.resp 200 (.error ())) =
      .ok (finalObj "Sorry, I'm having trouble connecting to services. Please try again.") := by
  refine ⟨rfl, ?_, rfl⟩
  unfold llm_json
  dsimp only []
  rw [if_pos hs]

/-- C5 (witness): a 500 response yields the fixed apology. -/
theorem llm_json_failure_apology_witness :
    llm_json jparseNone (.resp 500 (.ok Json.null)) =
      .ok (finalObj "Error contacting weather service. Please try again.") :=
  (llm_json_failure_apology jparseNone 500 (.ok Json.null) (by decide)).2.1

/-- C5 (counterexample to the claim as stated): a 200 response whose body is
valid JSON but lacks the `"choices"` key makes `llm_json` raise an uncaught
`KeyError` — the exception escapes to the caller instead of producing an
apology `Final`. -/
theorem llm_json_shape_keyerror :
    llm_json jparseNone (.resp 200 (.ok (Json.obj []))) = .error .keyError :=
  rfl

/-- C6: the reflection contract.  (1) the collaborator is invoked exactly
when the candidate answer's length exceeds 150; (2) below the threshold the
answer passes through untouched; (3) above it, a sentinel result (compared
case-insensitively) leaves the answer unchanged and any other result replaces
it; (4)-(6) every failure mode of the reflection call — raised transport
exception, `raise_for_status` on a 4xx/5xx status (the exact 400-599 range
requests raises for), unparseable body — degrades to the sentinel. -/
theorem reflection_contract :
    (∀ (reflect : Json → String) (answer : Json) (n : Nat),
        (reflectStep reflect answer n).2 = decide (n > 150)) ∧
    (∀ (reflect : Json → String) (answer : Json) (n : Nat), n ≤ 150 →
        reflectStep reflect answer n = (answer, false)) ∧
    (∀ (reflect : Json → String) (answer : Json) (n : Nat), 150 < n →
        (reflectStep reflect answer n).1 =
          if strLower (reflect answer) = "looks good" then answer
          else Json.str (reflect answer)) ∧
    (∀ answer : String, reflect_with_groq .raised answer = "looks good") ∧
    (∀ (answer : String) (status : Nat) (body : Except Unit Json),
        400 ≤ status → status < 600 →
        reflect_with_groq (.resp status body) answer = "looks good") ∧
    (∀ (answer : String) (status : Nat),
        reflect_with_groq (.resp status (.error ())) answer = "looks good") := by
  refine ⟨?_, ?_, ?_, ?_, ?_, ?_⟩
  · intro reflect answer n
    unfold reflectStep
    split
    · next h => simp [h]
    · next h => simp [Nat.not_lt.mp (by simpa using h)]
      
  · intro reflect answer n h
    unfold reflectStep
    rw [if_neg (by omega)]
  · intro reflect answer n h
    unfold reflectStep
    rw [if_pos h]
    dsimp only []
    by_cases hne : strLower (reflect answer) = "looks good" <;> simp [hne]
  · intro answer
    unfold reflect_with_groq
    split <;> rfl
  · intro answer status body h4 h6
    unfold reflect_with_groq
    split
    · rfl
    · dsimp only []
      rw [if_pos ⟨h4, h6⟩]
  · intro answer status
    unfold reflect_with_groq
    split
    · rfl
    · dsimp only []
      split
      · rfl
      · rfl

/-- C6 (witness): a short answer passes through unreflected; a long answer is
replaced by a non-sentinel reflection result; a 404 reflection call degrades
to the sentinel. -/
theorem reflection_contract_witness :
    reflectStep (fun _ => "REPLACED") (Json.str "short") 10 = (Json.str "short", false) ∧
    (reflectStep (fun _ => "REPLACED") (Json.str "long") 200).1 = Json.str "REPLACED" ∧
    reflect_with_groq (.resp 404 (.ok Json.null)) "a" = "looks good" :=
  ⟨reflection_contract.2.1 (fun _ => "REPLACED") (Json.str "short") 10 (by decide),
   by
     rw [reflection_contract.2.2.1 (fun _ => "REPLACED") (Json.str "long") 200 (by decide)]
     rfl,
   reflection_contract.2.2.2.2.1 "a" 404 (.ok Json.null) (by decide) (by decide)⟩

/-- C9 (amended): the combined-answer synthesis replaces the decoded answer
exactly when the user's message contains "weather", "book" and "joke" at once
(case-insensitively) AND at least one of the four MERGED categories (weather,
books, joke, dog) is truthy; trivia never participates in the merge and a
trivia-only accumulator leaves the answer verbatim (see
`combined_answer_trivia_only`); otherwise the answer is used verbatim. -/
theorem combined_answer_condition (u : String) (g : Gathered) (a : Json) :
    synthCombined u g a =
      if fourPopulated g && kwTriple u then Json.str (mergeAnswer g) else a := by
  obtain ⟨w, b, j, d, t⟩ := g
  simp only [synthCombined, anyGathered, fourPopulated, comboParts, mergeAnswer]
  cases hw : pyFalsy w <;> cases hb : pyFalsy b <;> cases hj : pyFalsy j <;>
    cases hd : pyFalsy d <;> cases ht : pyFalsy t <;> cases hk : kwTriple u <;>
      simp [hw, hb, hj, hd, ht, hk]

/-- C9 (counterexample to the claim as stated): with only the trivia category
populated and all three domain keywords present, the claim's activation
condition holds, yet the code leaves the decoded answer verbatim (the merge
skips trivia and `final_answer_parts` stays empty). -/
theorem combined_answer_trivia_only :
    anyGathered gTrivia = true ∧ kwTriple "weather book joke" = true ∧
    synthCombined "weather book joke" gTrivia (Json.str "orig") = Json.str "orig" :=
  ⟨rfl, rfl, rfl⟩

theorem regName_some_mem (j : Json) (names : List String) (s : String)
    (h : regName j names = some s) : s ∈ names := by
  unfold regName at h
  cases j with
  | str s' =>
      dsimp only [] at h
      split at h
      · next hc =>
          cases h
          exact List.mem_of_elem_eq_true hc
      · exact absurd h (by simp)
  | null => exact absurd h (by simp)
  | bool b => exact absurd h (by simp)
  | num n => exact absurd h (by simp)
  | fnum q => exact absurd h (by simp)
  | arr xs => exact absurd h (by simp)
  | obj kvs => exact absurd h (by simp)

/-- C7 (amended): a decoded non-final action whose name is falsy
(missing/empty) — part 1 — or truthy, hashable and not a registry key —
part 2 — appends exactly one corrective assistant turn carrying ALL
registered tool names, performs no tool invocation, and continues the loop;
but a truthy UNHASHABLE name (non-empty list/dict) crashes the session with
an uncaught `TypeError` at the membership test instead (part 3, and see
`unhashable_action_crash`); part 4: every tool invocation the loop ever
performs uses a name from the registry. -/
theorem unknown_tool_recovery :
    (∀ (ctx : LoopCtx) (u : String) (fuel step : Nat) (hist : List Turn) (g : Gathered)
        (cyc : Nat) (calls : List (String × Json)),
      jsonIsStrO (objGet (ctx.llm hist) "action") "final" = false →
      pyFalsyO (objGet (ctx.llm hist) "action") = true →
      runLoop ctx u (fuel + 1) step hist g cyc calls =
        runLoop ctx u fuel (step + 1)
          (hist ++ [⟨.assistant, .str (noActionMsg ctx.toolNames)⟩]) g (cyc + 1) calls) ∧
    (∀ (ctx : LoopCtx) (u : String) (fuel step : Nat) (hist : List Turn) (g : Gathered)
        (cyc : Nat) (calls : List (String × Json)),
      jsonIsStrO (objGet (ctx.llm hist) "action") "final" = false →
      pyFalsyO (objGet (ctx.llm hist) "action") = false →
      pyHashable ((objGet (ctx.llm hist) "action").getD .null) = true →
      regName ((objGet (ctx.llm hist) "action").getD .null) ctx.toolNames = none →
      runLoop ctx u (fuel + 1) step hist g cyc calls =
        runLoop ctx u fuel (step + 1)
          (hist ++ [⟨.assistant,
            .str (unknownMsg ((objGet (ctx.llm hist) "action").getD .null) ctx.toolNames)⟩])
          g (cyc + 1) calls) ∧
    (∀ (ctx : LoopCtx) (u : String) (fuel step : Nat) (hist : List Turn) (g : Gathered)
        (cyc : Nat) (calls : List (String × Json)),
      jsonIsStrO (objGet (ctx.llm hist) "action") "final" = false →
      pyFalsyO (objGet (ctx.llm hist) "action") = false →
      pyHashable ((objGet (ctx.llm hist) "action").getD .null) = false →
      runLoop ctx u (fuel + 1) step hist g cyc calls =
        ⟨hist, g, cyc + 1, calls, true⟩) ∧
    (∀ (ctx : LoopCtx) (u : String) (fuel step : Nat) (hist : List Turn) (g : Gathered)
        (cyc : Nat) (calls : List (String × Json)) (p : String × Json),
      p ∈ (runLoop ctx u fuel step hist g cyc calls).calls →
      p ∈ calls ∨ p.1 ∈ ctx.toolNames) := by
  refine ⟨?_, ?_, ?_, ?_⟩
  · intro ctx u fuel step hist g cyc calls h1 h2
    rw [runLoop]
    simp [h1, h2]
  · intro ctx u fuel step hist g cyc calls h1 h2 hh h3
    rw [runLoop]
    simp [h1, h2, hh, h3]
  · intro ctx u fuel step hist g cyc calls h1 h2 hh
    rw [runLoop]
    simp [h1, h2, hh]
  · intro ctx u fuel
    induction fuel with
    | zero =>
        intro step hist g cyc calls p hp
        exact Or.inl hp
    | succ n ih =>
        intro step hist g cyc calls p hp
        rw [runLoop] at hp
        dsimp only [] at hp
        split at hp
        · split at hp
          · exact Or.inl hp
          · exact Or.inl hp
        · split at hp
          · exact ih _ _ _ _ _ _ hp
          · split at hp
            case isFalse =>
              exact Or.inl hp
            case isTrue =>
              split at hp
              · exact ih _ _ _ _ _ _ hp
              · next s hreg =>
                  have hs : s ∈ ctx.toolNames := regName_some_mem _ _ _ hreg
                  split at hp
                  · split at hp
                    · dsimp only [] at hp
                      rcases List.mem_append.mp hp with h | h
                      · exact Or.inl h
                      · right
                        rw [List.mem_singleton.mp h]
                        exact hs
                    · rcases ih _ _ _ _ _ _ hp with h | h
                      · rcases List.mem_append.mp h with h' | h'
                        · exact Or.inl h'
                        · right
                          rw [List.mem_singleton.mp h']
                          exact hs
                      · exact Or.inr h
                  · split at hp
                    · dsimp only [] at hp
                      rcases List.mem_append.mp hp with h | h
                      · exact Or.inl h
                      · right
                        rw [List.mem_singleton.mp h]
                        exact hs
                    · rcases ih _ _ _ _ _ _ hp with h | h
                      · rcases List.mem_append.mp h with h' | h'
                        · exact Or.inl h'
                        · right
                          rw [List.mem_singleton.mp h']
                          exact hs
                      · exact Or.inr h

/-- C7 (witness): against the registry of get_weather and random_joke, the
decision `{"action": "bogus"}` appends exactly one corrective turn naming
both tools and recurses. -/
theorem unknown_tool_recovery_witness :
    runLoop ctx0 "hi" 3 0 [] initGathered 0 [] =
      runLoop ctx0 "hi" 2 1
        ([] ++ [⟨.assistant,
          .str (unknownMsg ((objGet (ctx0.llm []) "action").getD .null) ctx0.toolNames)⟩])
        initGathered (0 + 1) [] :=
  unknown_tool_recovery.2.1 ctx0 "hi" 2 0 [] initGathered 0 [] rfl rfl rfl rfl

/-- C7 (counterexample to the claim as stated): the decision
`{"action": ["x"]}` carries a truthy ToolCall name that is not a registry key
(no list is), yet it does NOT produce a recoverable corrective turn: the
membership test `tname not in tool_index` (line 328) raises an uncaught
`TypeError` on the unhashable name, so the loop crashes on its first cycle
with NO assistant turn appended and the session dies instead of continuing. -/
theorem unhashable_action_crash :
    pyFalsyO (objGet (ctxCrash.llm []) "action") = false ∧
    regName ((objGet (ctxCrash.llm []) "action").getD .null) ctxCrash.toolNames = none ∧
    processMessage ctxCrash [⟨.system, .str "sys"⟩] "hi" =
      ⟨[⟨.system, .str "sys"⟩, ⟨.user, .str "hi"⟩], initGathered, 1, [], true⟩ :=
  ⟨rfl, rfl, rfl⟩

/-- C10: when a dispatched tool invocation raises (lines 335-396), the cycle
leaves the gathered-info accumulator completely unchanged (`g` is passed on
untouched — no partial extraction happens, since the `except` handler at line
393 runs before any `gathered_info` update) and appends exactly one assistant
turn whose content is `"Error with {name}: {details}"`, then continues the
loop (the `step >= 11` budget append is a separate concern, hence the
`step < 11` guard here). -/
theorem tool_exception_recovery (ctx : LoopCtx) (u : String) (fuel step : Nat)
    (hist : List Turn) (g : Gathered) (cyc : Nat) (calls : List (String × Json))
    (s dmsg : String)
    (ha : objGet (ctx.llm hist) "action" = some (Json.str s))
    (hnf : (s == "final") = false) (hne : (s == "") = false)
    (hreg : ctx.toolNames.contains s = true)
    (hcall : ctx.callTool hist s ((objGet (ctx.llm hist) "args").getD (Json.obj [])) =
      .error dmsg)
    (hstep : step < 11) :
    runLoop ctx u (fuel + 1) step hist g cyc calls =
      runLoop ctx u fuel (step + 1)
        (hist ++ [⟨.assistant, .str ("Error with " ++ s ++ ": " ++ dmsg)⟩]) g (cyc + 1)
        (calls ++ [(s, (objGet (ctx.llm hist) "args").getD (Json.obj []))]) := by
  rw [runLoop]
  simp only [ha, jsonIsStrO, jsonIsStr, hnf, pyFalsyO, pyFalsy, hne, Option.getD_some,
    pyHashable, regName, hreg, if_true, hcall]
  simp [hnf, hne, Nat.not_le.mpr hstep]

/-- C10 (witness): a registered `get_weather` call whose invocation raises
with message "boom" appends exactly the error turn and leaves the (initial)
accumulator untouched. -/
theorem tool_exception_recovery_witness :
    runLoop ctxE "hi" 3 0 [] initGathered 0 [] =
      runLoop ctxE "hi" 2 1
        ([] ++ [⟨.assistant, .str ("Error with " ++ "get_weather" ++ ": " ++ "boom")⟩])
        initGathered (0 + 1)
        ([] ++ [("get_weather", (objGet (ctxE.llm []) "args").getD (Json.obj []))]) :=
  tool_exception_recovery ctxE "hi" 2 0 [] initGathered 0 [] "get_weather" "boom"
    rfl rfl rfl rfl rfl (by decide)

theorem runLoop_cycles_le (ctx : LoopCtx) (u : String) :
    ∀ (fuel step : Nat) (hist : List Turn) (g : Gathered) (cyc : Nat)
      (calls : List (String × Json)),
      (runLoop ctx u fuel step hist g cyc calls).cycles ≤ cyc + fuel := by
  intro fuel
  induction fuel with
  | zero =>
      intro step hist g cyc calls
      simp [runLoop]
  | succ n ih =>
      intro step hist g cyc calls
      rw [runLoop]
      dsimp only []
      split
      · split <;> (dsimp only []; omega)
      · split
        · exact le_trans (ih _ _ _ _ _) (by omega)
        · split
          · split
            · exact le_trans (ih _ _ _ _ _) (by omega)
            · split
              · split
                · dsimp only []
                  omega
                · exact le_trans (ih _ _ _ _ _) (by omega)
              · split
                · dsimp only []
                  omega
                · exact le_trans (ih _ _ _ _ _) (by omega)
          · dsimp only []
            omega

/-- C2 (amended): (i) the loop never executes more than 12 decode/dispatch
cycles per user message; (ii) when the final (12th) cycle actually dispatches
a registered tool — successfully or with a caught invocation error — the loop
terminates having appended that cycle's turn plus EXACTLY ONE terminal
assistant turn, the synthesized labeled list / fixed apology of lines
400-409.  (When the final cycle's decision has a missing or unregistered
name, the `continue` at lines 326/333 skips the budget check and the loop
ends on the corrective error turn with no synthesized terminal turn — see
`budget_unknown_tool_no_synthesis`.) -/
theorem budget_exhaustion_behavior :
    (∀ (ctx : LoopCtx) (hist : List Turn) (u : String),
        (processMessage ctx hist u).cycles ≤ 12) ∧
    (∀ (ctx : LoopCtx) (u : String) (fuel : Nat) (hist : List Turn) (g : Gathered)
        (cyc : Nat) (calls : List (String × Json)) (s : String),
      objGet (ctx.llm hist) "action" = some (Json.str s) →
      (s == "final") = false → (s == "") = false →
      ctx.toolNames.contains s = true →
      ∃ t : Turn, t.role = .assistant ∧ ∃ g2 : Gathered,
        runLoop ctx u (fuel + 1) 11 hist g cyc calls =
          ⟨hist ++ [t, ⟨.assistant, .str (budgetAnswer g2)⟩], g2, cyc + 1,
           calls ++ [(s, (objGet (ctx.llm hist) "args").getD (Json.obj []))], false⟩) := by
  constructor
  · intro ctx hist u
    exact le_trans (runLoop_cycles_le ctx u 12 0 _ initGathered 0 []) (by omega)
  · intro ctx u fuel hist g cyc calls s ha hnf hne hreg
    rw [runLoop]
    simp only [ha, jsonIsStrO, jsonIsStr, hnf, pyFalsyO, pyFalsy, hne, Option.getD_some,
      pyHashable, regName, hreg, if_true]
    cases hcall : ctx.callTool hist s ((objGet (ctx.llm hist) "args").getD (Json.obj [])) with
    | ok payload =>
        refine ⟨⟨.assistant, .str (toolTurnContent s payload)⟩, rfl,
          updateGathered ctx.jparse s payload g, ?_⟩
        simp [hnf, hne]
    | error dmsg =>
        refine ⟨⟨.assistant, .str ("Error with " ++ s ++ ": " ++ dmsg)⟩, rfl, g, ?_⟩
        simp [hnf, hne]

/-- C2 (witness): a run whose 12th cycle dispatches a registered tool ends
with the tool turn plus exactly one synthesized terminal turn. -/
theorem budget_exhaustion_behavior_witness :
    (processMessage ctxOk [] "hi").cycles ≤ 12 ∧
    ∃ t : Turn, t.role = .assistant ∧ ∃ g2 : Gathered,
      runLoop ctxOk "hi" 1 11 [] initGathered 11 [] =
        ⟨[] ++ [t, ⟨.assistant, .str (budgetAnswer g2)⟩], g2, 11 + 1,
         [] ++ [("random_joke", (objGet (ctxOk.llm []) "args").getD (Json.obj []))], false⟩ :=
  ⟨budget_exhaustion_behavior.1 ctxOk [] "hi",
   budget_exhaustion_behavior.2 ctxOk "hi" 0 [] initGathered 11 [] "random_joke"
     rfl rfl rfl rfl⟩

/-- C2 (counterexample to the claim as stated): twelve consecutive
unknown-tool decisions exhaust the budget with no `Final` decoded, yet the
terminal appended turn is the corrective error message — neither a
synthesized labeled list ("Based on what I found:…") nor the fixed apology —
because `continue` skips the budget check of lines 398-415. -/
theorem budget_unknown_tool_no_synthesis :
    processMessage ctx0 [⟨.system, .str "sys"⟩] "hi" =
      ⟨⟨.system, .str "sys"⟩ :: ⟨.user, .str "hi"⟩ ::
         List.replicate 12 ⟨.assistant, .str cexMsg⟩, initGathered, 12, [], false⟩ ∧
    cexMsg ≠
      "I tried to gather information but encountered some issues. Let me summarize what I have." ∧
    List.isPrefixOf "Based on what I found:".data cexMsg.data = false :=
  ⟨rfl, by decide, by decide⟩

theorem finalBranch_shape (reflect : Json → String) (u : String) (hist : List Turn)
    (g : Gathered) (d : List (String × Json)) (h2 : List Turn)
    (h : finalBranch reflect u hist g d = some h2) :
    ∃ a, h2 = hist ++ [⟨Role.assistant, a⟩] := by
  unfold finalBranch at h
  dsimp only [] at h
  split at h
  · exact absurd h (by simp)
  · cases h
    exact ⟨_, rfl⟩

theorem runLoop_hist_extend (ctx : LoopCtx) (u : String) :
    ∀ (fuel step : Nat) (hist : List Turn) (g : Gathered) (cyc : Nat)
      (calls : List (String × Json)), ∃ ts,
      (runLoop ctx u fuel step hist g cyc calls).hist = hist ++ ts ∧
      ∀ t ∈ ts, t.role = Role.assistant := by
  intro fuel
  induction fuel with
  | zero =>
      intro step hist g cyc calls
      exact ⟨[], by simp [runLoop], by simp⟩
  | succ n ih =>
      intro step hist g cyc calls
      rw [runLoop]
      dsimp only []
      split
      · split
        · next h2 hfb =>
            obtain ⟨a, rfl⟩ := finalBranch_shape _ _ _ _ _ _ hfb
            exact ⟨[⟨Role.assistant, a⟩], rfl, by simp⟩
        · exact ⟨[], by simp, by simp⟩
      · split
        · obtain ⟨ts, hh, hr⟩ := ih (step + 1)
            (hist ++ [⟨.assistant, .str (noActionMsg ctx.toolNames)⟩]) g (cyc + 1) calls
          refine ⟨⟨.assistant, .str (noActionMsg ctx.toolNames)⟩ :: ts, ?_, ?_⟩
          · rw [hh, List.append_assoc]
            rfl
          · intro t ht
            rcases List.mem_cons.mp ht with rfl | ht
            · rfl
            · exact hr t ht
        · split
          case isFalse => exact ⟨[], by simp, by simp⟩
          case isTrue =>
           split
           · obtain ⟨ts, hh, hr⟩ := ih (step + 1) _ g (cyc + 1) calls
             refine ⟨⟨.assistant,
               .str (unknownMsg ((objGet (ctx.llm hist) "action").getD Json.null)
                 ctx.toolNames)⟩ :: ts, ?_, ?_⟩
             · rw [hh, List.append_assoc]
               rfl
             · intro t ht
               rcases List.mem_cons.mp ht with rfl | ht
               · rfl
               · exact hr t ht
           · next s hreg =>
              split
              · next payload hcall =>
                  split
                  · refine ⟨[⟨.assistant, .str (toolTurnContent s payload)⟩,
                      ⟨.assistant,
                        .str (budgetAnswer (updateGathered ctx.jparse s payload g))⟩], ?_, ?_⟩
                    · dsimp only []
                      rw [List.append_assoc]
                      rfl
                    · intro t ht
                      rcases List.mem_cons.mp ht with rfl | ht
                      · rfl
                      · rcases List.mem_cons.mp ht with rfl | ht
                        · rfl
                        · exact absurd ht (by simp)
                  · obtain ⟨ts, hh, hr⟩ := ih (step + 1) _ _ (cyc + 1) _
                    refine ⟨⟨.assistant, .str (toolTurnContent s payload)⟩ :: ts, ?_, ?_⟩
                    · rw [hh, List.append_assoc]
                      rfl
                    · intro t ht
                      rcases List.mem_cons.mp ht with rfl | ht
                      · rfl
                      · exact hr t ht
              · next dmsg hcall =>
                  split
                  · refine ⟨[⟨.assistant, .str ("Error with " ++ s ++ ": " ++ dmsg)⟩,
                      ⟨.assistant, .str (budgetAnswer g)⟩], ?_, ?_⟩
                    · dsimp only []
                      rw [List.append_assoc]
                      rfl
                    · intro t ht
                      rcases List.mem_cons.mp ht with rfl | ht
                      · rfl
                      · rcases List.mem_cons.mp ht with rfl | ht
                        · rfl
                        · exact absurd ht (by simp)
                  · obtain ⟨ts, hh, hr⟩ := ih (step + 1) _ g (cyc + 1) _
                    refine ⟨⟨.assistant, .str ("Error with " ++ s ++ ": " ++ dmsg)⟩ :: ts, ?_, ?_⟩
                    · rw [hh, List.append_assoc]
                      rfl
                    · intro t ht
                      rcases List.mem_cons.mp ht with rfl | ht
                      · rfl
                      · exact hr t ht

theorem session_extend (ctx : LoopCtx) :
    ∀ (inputs : List String) (hist : List Turn), ∃ ts,
      session ctx inputs hist = hist ++ ts ∧ ∀ t ∈ ts, t.role ≠ Role.system := by
  intro inputs
  induction inputs with
  | nil =>
      intro hist
      exact ⟨[], by simp [session], by simp⟩
  | cons raw rest ih =>
      intro hist
      rw [session]
      dsimp only []
      split
      · exact ⟨[], by simp, by simp⟩
      · obtain ⟨ts0, h0, hr0⟩ := runLoop_hist_extend ctx (pyStrip raw) 12 0
          (hist ++ [⟨Role.user, .str (pyStrip raw)⟩]) initGathered 0 []
        have hout : (processMessage ctx hist (pyStrip raw)).hist =
            hist ++ (⟨Role.user, .str (pyStrip raw)⟩ :: ts0) := by
          unfold processMessage
          rw [h0, List.append_assoc]
          rfl
        have hroles : ∀ t ∈ (⟨Role.user, .str (pyStrip raw)⟩ : Turn) :: ts0,
            t.role ≠ Role.system := by
          intro t ht
          rcases List.mem_cons.mp ht with rfl | ht
          · simp
          · rw [hr0 t ht]
            simp
        split
        · exact ⟨⟨Role.user, .str (pyStrip raw)⟩ :: ts0, hout, hroles⟩
        · obtain ⟨ts1, h1, hr1⟩ := ih (processMessage ctx hist (pyStrip raw)).hist
          refine ⟨(⟨Role.user, .str (pyStrip raw)⟩ :: ts0) ++ ts1, ?_, ?_⟩
          · rw [h1, hout, List.append_assoc]
          · intro t ht
            rcases List.mem_append.mp ht with ht | ht
            · exact hroles t ht
            · exact hr1 t ht

/-- C8: throughout every session the conversation state is the single initial
system turn followed only by user/assistant turns — so it contains exactly
one system turn (hence never two consecutive ones) and grows append-only from
the initial history. -/
theorem single_system_turn (ctx : LoopCtx) (sysPrompt : String) (inputs : List String) :
    ∃ ts, runSession ctx sysPrompt inputs = ⟨Role.system, Json.str sysPrompt⟩ :: ts ∧
      (∀ t ∈ ts, t.role ≠ Role.system) ∧
      (runSession ctx sysPrompt inputs).countP (fun t => t.role == Role.system) = 1 := by
  obtain ⟨ts, h, hr⟩ := session_extend ctx inputs (initHistory sysPrompt)
  have hh : runSession ctx sysPrompt inputs = ⟨Role.system, Json.str sysPrompt⟩ :: ts := by
    rw [runSession, h]
    rfl
  refine ⟨ts, hh, hr, ?_⟩
  rw [hh, List.countP_cons]
  have hz : ts.countP (fun t => t.role == Role.system) = 0 := by
    rw [List.countP_eq_zero]
    intro t ht
    simpa using hr t ht
  simp [hz]
